import Mathlib

/-!
Verification of the Qtone-web pitch-tracking core.

The development shallowly embeds the two algorithmic components of the
repository:

* `detectPitch` (YIN-style estimator, `src/` pitch-detection file): pure
  function from a sample buffer and sample rate to a frequency in Hz,
  with `-1` as the "no pitch" sentinel, exactly as in the source.
* the tracker state machine inside `detectLoop` (`src/audio.js`,
  lines 87–135), modelled as `detectLoopStep`: given the block's raw
  pitch (the value `detectPitch` returned) and the block's amplitude, it
  updates the mutable module state (`smoothedPitch`, `smoothedCentsNote`,
  `smoothedCents`, `jumpCount`, `jumpCandidate`) and produces the pair
  reported to the `onPitchDetected` callback.
* `smoothCents` (`src/audio.js`, lines 257–268), modelled with the same
  explicit state.

JavaScript numbers are modelled by `ℚ`; every operation the embedded code
performs (+, -, *, /, comparisons) is exact on the rationals, so the
branch structure of the model is the branch structure of the source.
The amplitude computation (an RMS, using `Math.sqrt`) happens upstream of
the modelled code and the amplitude is passed in as an input, as in the
spec's tracker contract.
-/

/-- `AMPLITUDE_THRESHOLD = 0.005` (src/audio.js line 25). -/
def AMPLITUDE_THRESHOLD : ℚ := 5 / 1000

/-- `PITCH_SMOOTHING = 0.7` (src/audio.js line 26). -/
def PITCH_SMOOTHING : ℚ := 7 / 10

/-- `CENTS_SMOOTHING = 0.88` (src/audio.js line 27). -/
def CENTS_SMOOTHING : ℚ := 88 / 100

/-- `CENTS_DEADZONE = 1.5` (src/audio.js line 28). -/
def CENTS_DEADZONE : ℚ := 3 / 2

/-- `JUMP_CONFIRM = 3` (src/audio.js line 30). -/
def JUMP_CONFIRM : ℕ := 3

/-- The mutable pitch-detection state of the audio engine
(src/audio.js lines 14–19).  `smoothedCentsNote = -1` is the
"unset" sentinel. -/
structure TrackerState where
  smoothedPitch : ℚ
  smoothedCentsNote : ℤ
  smoothedCents : ℚ
  jumpCount : ℕ
  jumpCandidate : ℚ
deriving DecidableEq, Repr

/-- Initial values of the state variables (src/audio.js lines 15–19). -/
def initialState : TrackerState :=
  { smoothedPitch := 0
    smoothedCentsNote := -1
    smoothedCents := 0
    jumpCount := 0
    jumpCandidate := 0 }

/-- The jump-confirmation count after a voiced out-of-band block:
`candRatio = jumpCandidate > 0 ? pitch / jumpCandidate : 0`;
if `candRatio > 0.9 && candRatio < 1.1` the count is incremented,
otherwise it restarts at 1 (src/audio.js lines 102–110). -/
def nextJumpCount (s : TrackerState) (pitch : ℚ) : ℕ :=
  let candRatio := if s.jumpCandidate > 0 then pitch / s.jumpCandidate else 0
  if candRatio > 9/10 ∧ candRatio < 11/10 then s.jumpCount + 1 else 1

/-- The jump candidate after a voiced out-of-band block: kept when the
block corroborates the current candidate, replaced by the block's pitch
otherwise (src/audio.js lines 102–110). -/
def nextJumpCandidate (s : TrackerState) (pitch : ℚ) : ℚ :=
  let candRatio := if s.jumpCandidate > 0 then pitch / s.jumpCandidate else 0
  if candRatio > 9/10 ∧ candRatio < 11/10 then s.jumpCandidate else pitch

/-- One block of the tracker inside `detectLoop` (src/audio.js
lines 87–135).  Inputs: the state, the raw pitch returned by the
estimator for this block (`-1` when the estimator found no pitch) and the
block's amplitude.  Output: the new state and the `(frequency, amplitude)`
pair passed to the `onPitchDetected` callback. -/
def detectLoopStep (s : TrackerState) (pitch amplitude : ℚ) :
    TrackerState × ℚ × ℚ :=
  if amplitude < AMPLITUDE_THRESHOLD then
    ({ s with smoothedPitch := 0, smoothedCentsNote := -1 }, 0, 0)
  else if pitch > 0 ∧ pitch < 5000 then
    if s.smoothedPitch > 0 then
      let ratio := pitch / s.smoothedPitch
      if ratio > 9/5 ∨ ratio < 11/20 then
        if nextJumpCount s pitch ≥ JUMP_CONFIRM then
          ({ s with smoothedPitch := pitch, jumpCount := 0, jumpCandidate := 0 },
            pitch, amplitude)
        else
          ({ s with jumpCount := nextJumpCount s pitch,
                    jumpCandidate := nextJumpCandidate s pitch },
            s.smoothedPitch, amplitude)
      else
        let newPitch := PITCH_SMOOTHING * s.smoothedPitch + (1 - PITCH_SMOOTHING) * pitch
        ({ s with jumpCount := 0, jumpCandidate := 0, smoothedPitch := newPitch },
          newPitch, amplitude)
    else
      ({ s with smoothedPitch := pitch }, pitch, amplitude)
  else
    ({ s with smoothedPitch := 0, smoothedCentsNote := -1,
              jumpCount := 0, jumpCandidate := 0 }, 0, 0)

/-- The tracker state after feeding a list of `(pitch, amplitude)` blocks
from the initial state. -/
def runTracker (inputs : List (ℚ × ℚ)) : TrackerState :=
  inputs.foldl (fun s pa => (detectLoopStep s pa.1 pa.2).1) initialState

/-! ## The YIN-style estimator (`detectPitch`)

The source iterates over `Float32Array`s; the model uses `List ℚ` with
`getD _ 0` lookups (every lookup the source performs is in bounds, so the
default is never produced on the source's executions). -/

/-- A candidate local minimum of the CMNDF: `{ tau, value }`. -/
structure Candidate where
  tau : ℕ
  value : ℚ
deriving DecidableEq, Repr

/-- `threshold = 0.20` (pitch-detection source, step 3). -/
def yinThreshold : ℚ := 20 / 100

/-- Step 1 of `detectPitch`: the squared difference function at lag `tau`,
`Σ_{i < halfSize} (buffer[i] - buffer[i+tau])²`. -/
def squaredDifference (buffer : List ℚ) (halfSize tau : ℕ) : ℚ :=
  (List.range halfSize).foldl
    (fun sum i =>
      let delta := buffer.getD i 0 - buffer.getD (i + tau) 0
      sum + delta * delta) 0

/-- Helper for step 2 of `detectPitch`: transform the raw difference values
at lags `tau, tau+1, …`, threading the running sum:
`runningSum += yinBuffer[tau]; yinBuffer[tau] *= tau / runningSum`. -/
def cmndfAux (runningSum : ℚ) : List ℚ → ℕ → List ℚ
  | [], _ => []
  | v :: vs, tau =>
    let rs := runningSum + v
    v * ((tau : ℚ) / rs) :: cmndfAux rs vs (tau + 1)

/-- Step 2 of `detectPitch`: the cumulative mean normalized difference
function.  `yinBuffer[0] = 1`; for `tau ≥ 1` the raw value is scaled by
`tau / runningSum`. -/
def cmndf (raw : List ℚ) : List ℚ :=
  match raw with
  | [] => []
  | _ :: vs => 1 :: cmndfAux 0 vs 1

/-- The inner `while` of step 3: walk to the bottom of a dip:
`while (tau + 1 < maxTau && yinBuffer[tau+1] < yinBuffer[tau]) tau++`. -/
def walkDip (yin : List ℚ) (maxTau tau : ℕ) : ℕ :=
  if h : tau + 1 < maxTau ∧ yin.getD (tau + 1) 0 < yin.getD tau 0 then
    walkDip yin maxTau (tau + 1)
  else tau
termination_by maxTau - tau
decreasing_by omega

theorem le_walkDip (yin : List ℚ) (maxTau tau : ℕ) : tau ≤ walkDip yin maxTau tau := by
  unfold walkDip
  split
  · exact le_trans (Nat.le_succ tau) (le_walkDip yin maxTau (tau + 1))
  · exact le_refl tau
termination_by maxTau - tau
decreasing_by omega

/-- Step 3 of `detectPitch`: collect all local minima below the threshold,
scanning `tau` from the given start while `tau < maxTau - 1`; each dip is
descended to its bottom, recorded once, and the scan resumes after it. -/
def collectCandidates (yin : List ℚ) (maxTau tau : ℕ) : List Candidate :=
  if tau < maxTau - 1 then
    if yin.getD tau 0 < yinThreshold then
      let bottom := walkDip yin maxTau tau
      ⟨bottom, yin.getD bottom 0⟩ :: collectCandidates yin maxTau (bottom + 1)
    else
      collectCandidates yin maxTau (tau + 1)
  else []
termination_by maxTau - 1 - tau
decreasing_by
  · have := le_walkDip yin maxTau tau; omega
  · omega

/-- One comparison of step 4 of `detectPitch`: replace `best` by `c` when
`c.value < best.value * 0.8`, or when `c.value < best.value * 1.2` and
`c.tau > best.tau * 1.5`. -/
def pickBestStep (best c : Candidate) : Candidate :=
  if c.value < best.value * (8/10) then c
  else if c.value < best.value * (12/10) ∧ (c.tau : ℚ) > (best.tau : ℚ) * (3/2) then c
  else best

/-- Step 4 of `detectPitch`: the best-candidate selection, a left-to-right
fold of `pickBestStep` over the remaining candidates seeded with the
first (`best = candidates[0]; for (i = 1; …) …`). -/
def pickBest (first : Candidate) (rest : List Candidate) : Candidate :=
  rest.foldl pickBestStep first

/-- `s0` of step 5 of `detectPitch`: the CMNDF value at `tauEstimate - 1`,
falling back to the center value at the lower buffer edge
(`s0 = tauEstimate > 0 ? yinBuffer[tauEstimate-1] : yinBuffer[tauEstimate]`). -/
def interpS0 (yin : List ℚ) (tauEstimate : ℕ) : ℚ :=
  if tauEstimate > 0 then yin.getD (tauEstimate - 1) 0 else yin.getD tauEstimate 0

/-- `s1` of step 5 of `detectPitch`: the CMNDF value at the chosen lag. -/
def interpS1 (yin : List ℚ) (tauEstimate : ℕ) : ℚ :=
  yin.getD tauEstimate 0

/-- `s2` of step 5 of `detectPitch`: the CMNDF value at `tauEstimate + 1`,
falling back to the center value at the upper buffer edge. -/
def interpS2 (yin : List ℚ) (tauEstimate maxTau : ℕ) : ℚ :=
  if tauEstimate + 1 < maxTau then yin.getD (tauEstimate + 1) 0 else yin.getD tauEstimate 0

/-- `denom = 2 * (2*s1 - s2 - s0)` of step 5 of `detectPitch`. -/
def interpDenom (yin : List ℚ) (tauEstimate maxTau : ℕ) : ℚ :=
  2 * (2 * interpS1 yin tauEstimate - interpS2 yin tauEstimate maxTau - interpS0 yin tauEstimate)

/-- Step 5 of `detectPitch`: parabolic interpolation of the CMNDF around
the chosen integer lag; when `denom` is zero the integer lag is kept
(`betterTau = tauEstimate`). -/
def refineTau (yin : List ℚ) (tauEstimate maxTau : ℕ) : ℚ :=
  if interpDenom yin tauEstimate maxTau ≠ 0 then
    (tauEstimate : ℚ) +
      (interpS0 yin tauEstimate - interpS2 yin tauEstimate maxTau) /
        interpDenom yin tauEstimate maxTau
  else (tauEstimate : ℚ)

/-- `detectPitch(buffer, sampleRate)` (pitch-detection source): detected
frequency in Hz, or `-1` if no clear pitch was found. -/
def detectPitch (buffer : List ℚ) (sampleRate : ℚ) : ℚ :=
  let halfSize := buffer.length / 2
  let minTau := (Int.floor (sampleRate / 2000)).toNat
  let maxTau := min (Int.ceil (sampleRate / 60)).toNat halfSize
  let yin := cmndf ((List.range maxTau).map (squaredDifference buffer halfSize))
  match collectCandidates yin maxTau minTau with
  | [] => -1
  | c :: cs => sampleRate / refineTau yin (pickBest c cs).tau maxTau

/-- `smoothCents` (src/audio.js lines 257–268), with the module state made
explicit.  Returns the new state and the returned smoothed cents value. -/
def smoothCents (s : TrackerState) (noteIndex : ℤ) (rawCents : ℚ) :
    TrackerState × ℚ :=
  if noteIndex ≠ s.smoothedCentsNote then
    ({ s with smoothedCentsNote := noteIndex, smoothedCents := rawCents }, rawCents)
  else if |rawCents - s.smoothedCents| < CENTS_DEADZONE then
    (s, s.smoothedCents)
  else
    let v := CENTS_SMOOTHING * s.smoothedCents + (1 - CENTS_SMOOTHING) * rawCents
    ({ s with smoothedCents := v }, v)

/-! ## Branch lemmas for `detectLoopStep` -/

/-- Amplitude gate (src/audio.js lines 87–92): a block below the
amplitude threshold zeroes the smoothed pitch, unsets the cents note and
reports `(0, 0)`; the other fields are untouched. -/
theorem detectLoopStep_gate (s : TrackerState) (p a : ℚ)
    (ha : a < AMPLITUDE_THRESHOLD) :
    detectLoopStep s p a =
      ({ s with smoothedPitch := 0, smoothedCentsNote := -1 }, 0, 0) := by
  simp only [detectLoopStep, if_pos ha]

/-- Out-of-range / no-pitch branch (src/audio.js lines 129–135): a loud
block whose raw pitch is not strictly between 0 and 5000 (the estimator's
`-1` included) resets the smoothed pitch, the cents note and the jump
state, and reports `(0, 0)`. -/
theorem detectLoopStep_reset (s : TrackerState) (p a : ℚ)
    (ha : ¬ a < AMPLITUDE_THRESHOLD) (hp : ¬ (p > 0 ∧ p < 5000)) :
    detectLoopStep s p a =
      ({ s with smoothedPitch := 0, smoothedCentsNote := -1,
                jumpCount := 0, jumpCandidate := 0 }, 0, 0) := by
  simp only [detectLoopStep, if_neg ha, if_neg hp]

/-- First voiced block (src/audio.js lines 125–127): with no prior
smoothed pitch the raw pitch is adopted directly. -/
theorem detectLoopStep_adopt (s : TrackerState) (p a : ℚ)
    (ha : ¬ a < AMPLITUDE_THRESHOLD) (hp : p > 0 ∧ p < 5000)
    (hsp : ¬ s.smoothedPitch > 0) :
    detectLoopStep s p a = ({ s with smoothedPitch := p }, p, a) := by
  simp only [detectLoopStep, if_neg ha, if_pos hp, if_neg hsp]

/-- In-band voiced block (src/audio.js lines 120–124): the jump state is
cleared and the smoothed pitch is exponentially blended. -/
theorem detectLoopStep_smooth (s : TrackerState) (p a : ℚ)
    (ha : ¬ a < AMPLITUDE_THRESHOLD) (hp : p > 0 ∧ p < 5000)
    (hsp : s.smoothedPitch > 0)
    (hj : ¬ (p / s.smoothedPitch > 9/5 ∨ p / s.smoothedPitch < 11/20)) :
    detectLoopStep s p a =
      ({ s with jumpCount := 0, jumpCandidate := 0,
                smoothedPitch := PITCH_SMOOTHING * s.smoothedPitch
                  + (1 - PITCH_SMOOTHING) * p },
        PITCH_SMOOTHING * s.smoothedPitch + (1 - PITCH_SMOOTHING) * p, a) := by
  simp only [detectLoopStep, if_neg ha, if_pos hp, if_pos hsp, if_neg hj]

/-- Unconfirmed out-of-band block (src/audio.js lines 101–118): the jump
state advances but the smoothed pitch is reported unchanged. -/
theorem detectLoopStep_jump_wait (s : TrackerState) (p a : ℚ)
    (ha : ¬ a < AMPLITUDE_THRESHOLD) (hp : p > 0 ∧ p < 5000)
    (hsp : s.smoothedPitch > 0)
    (hj : p / s.smoothedPitch > 9/5 ∨ p / s.smoothedPitch < 11/20)
    (hc : nextJumpCount s p < JUMP_CONFIRM) :
    detectLoopStep s p a =
      ({ s with jumpCount := nextJumpCount s p,
                jumpCandidate := nextJumpCandidate s p },
        s.smoothedPitch, a) := by
  simp only [detectLoopStep, if_neg ha, if_pos hp, if_pos hsp, if_pos hj,
    if_neg (by omega : ¬ nextJumpCount s p ≥ JUMP_CONFIRM)]

/-- Confirmed jump (src/audio.js lines 112–115): on the corroborating
block the raw pitch is adopted directly and the jump state is cleared. -/
theorem detectLoopStep_jump_confirm (s : TrackerState) (p a : ℚ)
    (ha : ¬ a < AMPLITUDE_THRESHOLD) (hp : p > 0 ∧ p < 5000)
    (hsp : s.smoothedPitch > 0)
    (hj : p / s.smoothedPitch > 9/5 ∨ p / s.smoothedPitch < 11/20)
    (hc : nextJumpCount s p ≥ JUMP_CONFIRM) :
    detectLoopStep s p a =
      ({ s with smoothedPitch := p, jumpCount := 0, jumpCandidate := 0 },
        p, a) := by
  simp only [detectLoopStep, if_neg ha, if_pos hp, if_pos hsp, if_pos hj, if_pos hc]

/-- With a cleared jump candidate an out-of-band block starts a fresh
candidate. -/
theorem nextJumpCount_of_clear (s : TrackerState) (p : ℚ)
    (h : s.jumpCandidate = 0) : nextJumpCount s p = 1 := by
  simp [nextJumpCount, h]
  norm_num

theorem nextJumpCandidate_of_clear (s : TrackerState) (p : ℚ)
    (h : s.jumpCandidate = 0) : nextJumpCandidate s p = p := by
  simp [nextJumpCandidate, h]
  norm_num

/-- A block within ±10 % of a live candidate increments the count. -/
theorem nextJumpCount_of_near (s : TrackerState) (p : ℚ)
    (h : s.jumpCandidate > 0)
    (hr : p / s.jumpCandidate > 9/10 ∧ p / s.jumpCandidate < 11/10) :
    nextJumpCount s p = s.jumpCount + 1 := by
  simp [nextJumpCount, if_pos h, hr]

theorem nextJumpCandidate_of_near (s : TrackerState) (p : ℚ)
    (h : s.jumpCandidate > 0)
    (hr : p / s.jumpCandidate > 9/10 ∧ p / s.jumpCandidate < 11/10) :
    nextJumpCandidate s p = s.jumpCandidate := by
  simp [nextJumpCandidate, if_pos h, hr]

/-! ## Claims -/

/-- C3 counterexample: with amplitude `0 < AMPLITUDE_THRESHOLD`, the
tracker zeroes the smoothed pitch, unsets the cents note and reports
NoPitch, but the jump state (`jumpCount = 2`, `jumpCandidate = 440`) is
NOT cleared, contradicting the claim that the amplitude gate clears the
jump state. -/
theorem C3_counterexample :
    (0 : ℚ) < AMPLITUDE_THRESHOLD ∧
    (detectLoopStep ⟨100, 3, 0, 2, 440⟩ 200 0).1.smoothedPitch = 0 ∧
    (detectLoopStep ⟨100, 3, 0, 2, 440⟩ 200 0).1.smoothedCentsNote = -1 ∧
    (detectLoopStep ⟨100, 3, 0, 2, 440⟩ 200 0).2.1 = 0 ∧
    (detectLoopStep ⟨100, 3, 0, 2, 440⟩ 200 0).1.jumpCount = 2 ∧
    (detectLoopStep ⟨100, 3, 0, 2, 440⟩ 200 0).1.jumpCandidate = 440 := by
  norm_num [detectLoopStep, AMPLITUDE_THRESHOLD]

/-- C3 (amended): a block with amplitude below the threshold makes the
tracker set `smoothedPitchHz` to 0, set `smoothedCentsNoteIndex` to the
unset sentinel and report NoPitch, but leaves the jump state
(`jumpCandidateHz`, `jumpConfirmCount`) unchanged; when the amplitude is
at or above the threshold and the estimator returned NoPitch or the raw
frequency is outside `(0, 5000)` Hz, the tracker additionally clears the
jump state. -/
theorem C3_reset_behavior :
    (∀ (s : TrackerState) (p a : ℚ), a < AMPLITUDE_THRESHOLD →
      detectLoopStep s p a =
        ({ s with smoothedPitch := 0, smoothedCentsNote := -1 }, 0, 0)) ∧
    (∀ (s : TrackerState) (p a : ℚ),
      ¬ a < AMPLITUDE_THRESHOLD → ¬ (p > 0 ∧ p < 5000) →
      detectLoopStep s p a =
        ({ s with smoothedPitch := 0, smoothedCentsNote := -1,
                  jumpCount := 0, jumpCandidate := 0 }, 0, 0)) :=
  ⟨detectLoopStep_gate, detectLoopStep_reset⟩

/-- Witness for `C3_reset_behavior`: a silent block keeps the stale jump
state; a loud block with the estimator's `-1` clears everything. -/
theorem C3_reset_behavior_witness :
    detectLoopStep ⟨100, 3, 0, 2, 440⟩ 200 0 =
      (⟨0, -1, 0, 2, 440⟩, 0, 0) ∧
    detectLoopStep ⟨100, 3, 0, 2, 440⟩ (-1) 1 =
      (⟨0, -1, 0, 0, 0⟩, 0, 0) :=
  ⟨C3_reset_behavior.1 ⟨100, 3, 0, 2, 440⟩ 200 0 (by norm_num [AMPLITUDE_THRESHOLD]),
   C3_reset_behavior.2 ⟨100, 3, 0, 2, 440⟩ (-1) 1 (by norm_num [AMPLITUDE_THRESHOLD])
     (by norm_num)⟩

/-- C6: the first `smoothCents` call whose `noteIndex` differs from the
stored `smoothedCentsNoteIndex` returns exactly `rawCents` and stores the
new index (the stored cents becoming `rawCents`), regardless of the prior
smoothed value. -/
theorem C6_cents_reset (s : TrackerState) (n : ℤ) (r : ℚ)
    (h : n ≠ s.smoothedCentsNote) :
    (smoothCents s n r).2 = r ∧
    (smoothCents s n r).1 =
      { s with smoothedCentsNote := n, smoothedCents := r } := by
  simp [smoothCents, h]

/-- Witness for `C6_cents_reset`: a note change from a state with stored
cents 40 adopts the new raw cents exactly. -/
theorem C6_cents_reset_witness :
    (7 : ℤ) ≠ (⟨0, 3, 40, 0, 0⟩ : TrackerState).smoothedCentsNote ∧
    (smoothCents ⟨0, 3, 40, 0, 0⟩ 7 (23/10)).2 = 23/10 ∧
    (smoothCents ⟨0, 3, 40, 0, 0⟩ 7 (23/10)).1 = ⟨0, 7, 23/10, 0, 0⟩ := by
  refine ⟨by norm_num, ?_, ?_⟩
  · exact (C6_cents_reset ⟨0, 3, 40, 0, 0⟩ 7 (23/10) (by norm_num)).1
  · exact (C6_cents_reset ⟨0, 3, 40, 0, 0⟩ 7 (23/10) (by norm_num)).2

/-- C7: the sub-sample refinement is
`refinedTau = tau + (s0 - s2)/denom` whenever `denom = 2*(2*s1 - s2 - s0)`
is nonzero and `refinedTau = tau` otherwise; in particular for a
symmetric dip (`s0 = s2`) the refined lag equals the integer lag
exactly. -/
theorem C7_interpolation (yin : List ℚ) (tauEstimate maxTau : ℕ) :
    (interpDenom yin tauEstimate maxTau ≠ 0 →
      refineTau yin tauEstimate maxTau =
        (tauEstimate : ℚ) +
          (interpS0 yin tauEstimate - interpS2 yin tauEstimate maxTau) /
            interpDenom yin tauEstimate maxTau) ∧
    (interpDenom yin tauEstimate maxTau = 0 →
      refineTau yin tauEstimate maxTau = (tauEstimate : ℚ)) ∧
    (interpS0 yin tauEstimate = interpS2 yin tauEstimate maxTau →
      refineTau yin tauEstimate maxTau = (tauEstimate : ℚ)) := by
  refine ⟨fun h => by simp [refineTau, h], fun h => by simp [refineTau, h],
    fun h => ?_⟩
  by_cases hd : interpDenom yin tauEstimate maxTau = 0
  · simp [refineTau, hd]
  · simp [refineTau, hd, h]

/-- Witness for `C7_interpolation`: a clean symmetric parabolic dip
centered at lag 2 is refined to exactly 2. -/
theorem C7_interpolation_witness :
    interpS0 [1, 1/2, 1/10, 1/2, 1] 2 = interpS2 [1, 1/2, 1/10, 1/2, 1] 2 5 ∧
    refineTau [1, 1/2, 1/10, 1/2, 1] 2 5 = 2 := by
  constructor
  · norm_num [interpS0, interpS2]
  · have := (C7_interpolation [1, 1/2, 1/10, 1/2, 1] 2 5).2.2
      (by norm_num [interpS0, interpS2])
    exact_mod_cast this

/-- C8: a voiced block whose ratio to the prior smoothed pitch lies in
`[0.55, 1.8]` clears the jump state and blends
`smoothedPitchHz = 0.7*old + 0.3*rawHz`, reporting the new value; a
voiced block with no prior smoothed pitch adopts `rawHz` directly. -/
theorem C8_inband_smoothing (s : TrackerState) (p a : ℚ)
    (ha : ¬ a < AMPLITUDE_THRESHOLD) (hp : p > 0 ∧ p < 5000) :
    (0 < s.smoothedPitch →
      11/20 ≤ p / s.smoothedPitch → p / s.smoothedPitch ≤ 9/5 →
      detectLoopStep s p a =
        ({ s with jumpCount := 0, jumpCandidate := 0,
                  smoothedPitch := (7/10) * s.smoothedPitch + (3/10) * p },
          (7/10) * s.smoothedPitch + (3/10) * p, a)) ∧
    (s.smoothedPitch = 0 →
      detectLoopStep s p a = ({ s with smoothedPitch := p }, p, a)) := by
  constructor
  · intro hsp hlo hhi
    have hj : ¬ (p / s.smoothedPitch > 9/5 ∨ p / s.smoothedPitch < 11/20) := by
      push_neg
      exact ⟨hhi, hlo⟩
    rw [detectLoopStep_smooth s p a ha hp hsp hj]
    norm_num [PITCH_SMOOTHING]
  · intro hsp
    exact detectLoopStep_adopt s p a ha hp (by rw [hsp]; norm_num)

/-- Witness for `C8_inband_smoothing`: from smoothed pitch 400, a block
at 500 Hz (ratio 1.25) blends to 430; from smoothed pitch 0 a block at
500 Hz is adopted directly. -/
theorem C8_inband_smoothing_witness :
    detectLoopStep ⟨400, -1, 0, 0, 0⟩ 500 1 = (⟨430, -1, 0, 0, 0⟩, 430, 1) ∧
    detectLoopStep ⟨0, -1, 0, 0, 0⟩ 500 1 = (⟨500, -1, 0, 0, 0⟩, 500, 1) := by
  constructor
  · have := (C8_inband_smoothing ⟨400, -1, 0, 0, 0⟩ 500 1
      (by norm_num [AMPLITUDE_THRESHOLD]) (by norm_num)).1
      (by norm_num) (by norm_num) (by norm_num)
    rw [this]
    norm_num
  · exact (C8_inband_smoothing ⟨0, -1, 0, 0, 0⟩ 500 1
      (by norm_num [AMPLITUDE_THRESHOLD]) (by norm_num)).2 rfl

/-- C9: whenever a tracker update reports NoPitch (frequency 0), the
resulting state's `smoothedCentsNoteIndex` is the unset sentinel, so
stale cents never leak across silence. -/
theorem C9_noPitch_unsets_note (s : TrackerState) (p a : ℚ)
    (h : (detectLoopStep s p a).2.1 = 0) :
    (detectLoopStep s p a).1.smoothedCentsNote = -1 := by
  by_cases ha : a < AMPLITUDE_THRESHOLD
  · rw [detectLoopStep_gate s p a ha]
  · by_cases hp : p > 0 ∧ p < 5000
    · exfalso
      by_cases hsp : s.smoothedPitch > 0
      · by_cases hj : p / s.smoothedPitch > 9/5 ∨ p / s.smoothedPitch < 11/20
        · by_cases hc : nextJumpCount s p ≥ JUMP_CONFIRM
          · rw [detectLoopStep_jump_confirm s p a ha hp hsp hj hc] at h
            simp at h
            exact absurd h (ne_of_gt hp.1)
          · rw [detectLoopStep_jump_wait s p a ha hp hsp hj (by omega)] at h
            simp at h
            exact absurd h (ne_of_gt hsp)
        · rw [detectLoopStep_smooth s p a ha hp hsp hj] at h
          simp [PITCH_SMOOTHING] at h
          nlinarith [hp.1, hsp, h]
      · rw [detectLoopStep_adopt s p a ha hp hsp] at h
        simp at h
        exact absurd h (ne_of_gt hp.1)
    · rw [detectLoopStep_reset s p a ha hp]

/-- Witness for `C9_noPitch_unsets_note`: a loud block on which the
estimator found no pitch (`-1`) reports 0 and unsets the cents note. -/
theorem C9_noPitch_unsets_note_witness :
    (detectLoopStep ⟨100, 3, 40, 0, 0⟩ (-1) 1).2.1 = 0 ∧
    (detectLoopStep ⟨100, 3, 40, 0, 0⟩ (-1) 1).1.smoothedCentsNote = -1 :=
  ⟨by norm_num [detectLoopStep, AMPLITUDE_THRESHOLD],
   C9_noPitch_unsets_note ⟨100, 3, 40, 0, 0⟩ (-1) 1
     (by norm_num [detectLoopStep, AMPLITUDE_THRESHOLD])⟩

/-- Every `smoothCents` call stores its `noteIndex`. -/
theorem smoothCents_note (s : TrackerState) (n : ℤ) (r : ℚ) :
    (smoothCents s n r).1.smoothedCentsNote = n := by
  unfold smoothCents
  split_ifs with h1 h2 <;> simp_all

/-- Every `smoothCents` call returns the stored cents of the state it
leaves behind. -/
theorem smoothCents_val (s : TrackerState) (n : ℤ) (r : ℚ) :
    (smoothCents s n r).2 = (smoothCents s n r).1.smoothedCents := by
  unfold smoothCents
  split_ifs <;> rfl

/-- C5 counterexample: both calls use note index 5 and raw cents 1.4 and
2.8 (differing by 1.4 < 1.5), yet from stored cents 0 the first call
returns 0 (deadzone) and the second returns 42/125 (blend), so the claim
that the two calls return identical values is false. -/
theorem C5_counterexample :
    |(14/5 : ℚ) - 7/5| < CENTS_DEADZONE ∧
    (smoothCents ⟨0, 5, 0, 0, 0⟩ 5 (7/5)).2 = 0 ∧
    (smoothCents (smoothCents ⟨0, 5, 0, 0, 0⟩ 5 (7/5)).1 5 (14/5)).2 = 42/125 ∧
    (42/125 : ℚ) ≠ 0 := by
  refine ⟨?_, ?_, ?_, by norm_num⟩
  · rw [show (14/5 : ℚ) - 7/5 = 7/5 by norm_num, abs_of_nonneg (by norm_num)]
    norm_num [CENTS_DEADZONE]
  · norm_num [smoothCents, abs_lt, abs_sub_lt_iff, CENTS_DEADZONE]
  · norm_num [smoothCents, abs_lt, abs_sub_lt_iff, CENTS_DEADZONE, CENTS_SMOOTHING]

/-- C5 (amended): consecutive `smoothCents` calls with the same
`noteIndex` return identical values whenever the second call's `rawCents`
differs from the value the first call returned by less than the 1.5-cent
deadzone; the second call also leaves the state unchanged. -/
theorem C5_deadzone_consecutive (s : TrackerState) (n : ℤ) (r₁ r₂ : ℚ)
    (h : |r₂ - (smoothCents s n r₁).2| < CENTS_DEADZONE) :
    (smoothCents (smoothCents s n r₁).1 n r₂).2 = (smoothCents s n r₁).2 ∧
    (smoothCents (smoothCents s n r₁).1 n r₂).1 = (smoothCents s n r₁).1 := by
  have hnote := smoothCents_note s n r₁
  have hval := smoothCents_val s n r₁
  have hne : ¬ (n ≠ (smoothCents s n r₁).1.smoothedCentsNote) := by
    rw [hnote]
    exact fun hx => hx rfl
  have hdz : |r₂ - (smoothCents s n r₁).1.smoothedCents| < CENTS_DEADZONE := by
    rw [← hval]; exact h
  constructor
  · conv_lhs => rw [smoothCents, if_neg hne, if_pos hdz]
    exact hval.symm
  · conv_lhs => rw [smoothCents, if_neg hne, if_pos hdz]

/-- Witness for `C5_deadzone_consecutive`: after a reset call storing
raw cents 10 at note 5, a second call at 11 (within the deadzone of the
returned 10) returns 10 again. -/
theorem C5_deadzone_consecutive_witness :
    |(11 : ℚ) - (smoothCents ⟨0, -1, 0, 0, 0⟩ 5 10).2| < CENTS_DEADZONE ∧
    (smoothCents (smoothCents ⟨0, -1, 0, 0, 0⟩ 5 10).1 5 11).2 =
      (smoothCents ⟨0, -1, 0, 0, 0⟩ 5 10).2 := by
  have h : |(11 : ℚ) - (smoothCents ⟨0, -1, 0, 0, 0⟩ 5 10).2| < CENTS_DEADZONE := by
    norm_num [smoothCents, abs_lt, CENTS_DEADZONE]
  exact ⟨h, (C5_deadzone_consecutive ⟨0, -1, 0, 0, 0⟩ 5 10 11 h).1⟩

/-- A voiced block at exactly the current smoothed pitch is in band
(ratio 1), clears the jump state and leaves the smoothed pitch fixed
(`0.7*f + 0.3*f = f`). -/
theorem detectLoopStep_stable (s : TrackerState) (p a : ℚ)
    (ha : ¬ a < AMPLITUDE_THRESHOLD) (heq : p = s.smoothedPitch)
    (hsp : 0 < s.smoothedPitch) (hlt : s.smoothedPitch < 5000) :
    detectLoopStep s p a =
      ({ s with jumpCount := 0, jumpCandidate := 0 }, p, a) := by
  subst heq
  have hj : ¬ (s.smoothedPitch / s.smoothedPitch > 9/5 ∨
      s.smoothedPitch / s.smoothedPitch < 11/20) := by
    rw [div_self (ne_of_gt hsp)]
    norm_num
  rw [detectLoopStep_smooth s s.smoothedPitch a ha ⟨hsp, hlt⟩ hsp hj]
  have hfix : PITCH_SMOOTHING * s.smoothedPitch
      + (1 - PITCH_SMOOTHING) * s.smoothedPitch = s.smoothedPitch := by ring
  rw [hfix]

/-- C2: while a large pitch change is unconfirmed (out-of-band voiced
block whose updated confirmation count stays below 3) the tracker keeps
and reports the previous smoothed pitch; in particular a single
out-of-band outlier between two blocks at a stable frequency `f` (the
current smoothed pitch) never changes `smoothedPitchHz`. -/
theorem C2_unconfirmed_jump :
    (∀ (s : TrackerState) (p a : ℚ),
      ¬ a < AMPLITUDE_THRESHOLD → p > 0 ∧ p < 5000 → s.smoothedPitch > 0 →
      (p / s.smoothedPitch > 9/5 ∨ p / s.smoothedPitch < 11/20) →
      nextJumpCount s p < JUMP_CONFIRM →
      (detectLoopStep s p a).1.smoothedPitch = s.smoothedPitch ∧
      (detectLoopStep s p a).2.1 = s.smoothedPitch) ∧
    (∀ (s : TrackerState) (f o a₁ a₂ a₃ : ℚ),
      s.smoothedPitch = f → 0 < f → f < 5000 →
      o / f > 9/5 → o < 5000 →
      ¬ a₁ < AMPLITUDE_THRESHOLD → ¬ a₂ < AMPLITUDE_THRESHOLD →
      ¬ a₃ < AMPLITUDE_THRESHOLD →
      (detectLoopStep s f a₁).1.smoothedPitch = f ∧
      (detectLoopStep (detectLoopStep s f a₁).1 o a₂).1.smoothedPitch = f ∧
      (detectLoopStep (detectLoopStep (detectLoopStep s f a₁).1 o a₂).1
        f a₃).1.smoothedPitch = f) := by
  constructor
  · intro s p a ha hp hsp hj hc
    rw [detectLoopStep_jump_wait s p a ha hp hsp hj hc]
    exact ⟨rfl, rfl⟩
  · intro s f o a₁ a₂ a₃ heq hf0 hf5 hratio ho5 ha₁ ha₂ ha₃
    subst heq
    have ho0 : 0 < o := by
      have h1 : 9/5 * s.smoothedPitch < o := (lt_div_iff₀ hf0).mp hratio
      nlinarith
    have e₁ : (detectLoopStep s s.smoothedPitch a₁).1
        = { s with jumpCount := 0, jumpCandidate := 0 } := by
      rw [detectLoopStep_stable s s.smoothedPitch a₁ ha₁ rfl hf0 hf5]
    have e₂ : (detectLoopStep { s with jumpCount := 0, jumpCandidate := 0 } o a₂).1
        = { s with jumpCount := 1, jumpCandidate := o } := by
      rw [detectLoopStep_jump_wait { s with jumpCount := 0, jumpCandidate := 0 }
        o a₂ ha₂ ⟨ho0, ho5⟩ hf0 (Or.inl hratio)
        (by rw [nextJumpCount_of_clear { s with jumpCount := 0, jumpCandidate := 0 } o rfl]
            norm_num [JUMP_CONFIRM])]
      rw [nextJumpCount_of_clear { s with jumpCount := 0, jumpCandidate := 0 } o rfl,
        nextJumpCandidate_of_clear { s with jumpCount := 0, jumpCandidate := 0 } o rfl]
    have e₃ : (detectLoopStep { s with jumpCount := 1, jumpCandidate := o }
        s.smoothedPitch a₃).1 = { s with jumpCount := 0, jumpCandidate := 0 } := by
      rw [detectLoopStep_stable { s with jumpCount := 1, jumpCandidate := o }
        s.smoothedPitch a₃ ha₃ rfl hf0 hf5]
    rw [e₁, e₂, e₃]
    exact ⟨rfl, rfl, rfl⟩

/-- Witness for `C2_unconfirmed_jump`: a first out-of-band block at
300 Hz over a smoothed 100 Hz keeps and reports 100; the sequence
stable–outlier–stable keeps the smoothed pitch at 100 throughout, even
from a state with a stale jump candidate. -/
theorem C2_unconfirmed_jump_witness :
    ((detectLoopStep ⟨100, -1, 0, 0, 0⟩ 300 1).1.smoothedPitch = 100 ∧
     (detectLoopStep ⟨100, -1, 0, 0, 0⟩ 300 1).2.1 = 100) ∧
    ((detectLoopStep ⟨100, -1, 0, 2, 500⟩ 100 1).1.smoothedPitch = 100 ∧
     (detectLoopStep (detectLoopStep ⟨100, -1, 0, 2, 500⟩ 100 1).1
       300 1).1.smoothedPitch = 100 ∧
     (detectLoopStep (detectLoopStep (detectLoopStep ⟨100, -1, 0, 2, 500⟩ 100 1).1
       300 1).1 100 1).1.smoothedPitch = 100) := by
  constructor
  · exact C2_unconfirmed_jump.1 ⟨100, -1, 0, 0, 0⟩ 300 1
      (by norm_num [AMPLITUDE_THRESHOLD]) (by norm_num) (by norm_num)
      (by norm_num) (by norm_num [nextJumpCount, JUMP_CONFIRM])
  · exact C2_unconfirmed_jump.2 ⟨100, -1, 0, 2, 500⟩ 100 300 1 1 1
      rfl (by norm_num) (by norm_num) (by norm_num) (by norm_num)
      (by norm_num [AMPLITUDE_THRESHOLD]) (by norm_num [AMPLITUDE_THRESHOLD])
      (by norm_num [AMPLITUDE_THRESHOLD])

/-- C1 counterexample: from the reachable state with smoothed pitch 100,
`jumpCount = 1` and stale `jumpCandidate = 1000`, the three voiced
blocks 1050, 1105, 1100 Hz all have ratio > 1.8 to the (unchanged)
smoothed pitch and are each within ±10 % of the first block 1050, yet
after the 3rd block the smoothed pitch is still 100 (not 1100) and the
jump state is not cleared — the claim fails for states whose jump state
is not clear. -/
theorem C1_counterexample :
    (0 : ℚ) < 100 ∧
    ((1050 : ℚ)/100 > 9/5 ∧ (1105 : ℚ)/100 > 9/5 ∧ (1100 : ℚ)/100 > 9/5) ∧
    ((9 : ℚ)/10 < 1105/1050 ∧ (1105 : ℚ)/1050 < 11/10 ∧
     (9 : ℚ)/10 < 1100/1050 ∧ (1100 : ℚ)/1050 < 11/10) ∧
    (detectLoopStep ⟨100, -1, 0, 1, 1000⟩ 1050 1).1.smoothedPitch = 100 ∧
    (detectLoopStep (detectLoopStep ⟨100, -1, 0, 1, 1000⟩ 1050 1).1
      1105 1).1.smoothedPitch = 100 ∧
    (detectLoopStep (detectLoopStep (detectLoopStep ⟨100, -1, 0, 1, 1000⟩ 1050 1).1
      1105 1).1 1100 1).1.smoothedPitch = 100 ∧
    (detectLoopStep (detectLoopStep (detectLoopStep ⟨100, -1, 0, 1, 1000⟩ 1050 1).1
      1105 1).1 1100 1).1.jumpCount = 2 := by
  norm_num [detectLoopStep, nextJumpCount, nextJumpCandidate,
    AMPLITUDE_THRESHOLD, JUMP_CONFIRM, PITCH_SMOOTHING]

/-- C1 (amended): from a state with a prior smoothed pitch and a CLEAR
jump state (`jumpCandidateHz = 0`), three consecutive voiced blocks with
out-of-band ratios, the 2nd and 3rd within ±10 % of the 1st, leave the
smoothed pitch unchanged on blocks 1 and 2 and, on the 3rd block, set
`smoothedPitchHz` to that block's raw frequency directly (no blending)
and clear the jump state. -/
theorem C1_jump_confirm (s : TrackerState) (p₁ p₂ p₃ a₁ a₂ a₃ : ℚ)
    (hsp : s.smoothedPitch > 0) (hcand : s.jumpCandidate = 0)
    (ha₁ : ¬ a₁ < AMPLITUDE_THRESHOLD) (ha₂ : ¬ a₂ < AMPLITUDE_THRESHOLD)
    (ha₃ : ¬ a₃ < AMPLITUDE_THRESHOLD)
    (hp₁ : p₁ > 0 ∧ p₁ < 5000) (hp₂ : p₂ > 0 ∧ p₂ < 5000)
    (hp₃ : p₃ > 0 ∧ p₃ < 5000)
    (hj₁ : p₁ / s.smoothedPitch > 9/5 ∨ p₁ / s.smoothedPitch < 11/20)
    (hj₂ : p₂ / s.smoothedPitch > 9/5 ∨ p₂ / s.smoothedPitch < 11/20)
    (hj₃ : p₃ / s.smoothedPitch > 9/5 ∨ p₃ / s.smoothedPitch < 11/20)
    (h₂₁ : p₂ / p₁ > 9/10 ∧ p₂ / p₁ < 11/10)
    (h₃₁ : p₃ / p₁ > 9/10 ∧ p₃ / p₁ < 11/10) :
    (detectLoopStep s p₁ a₁).1.smoothedPitch = s.smoothedPitch ∧
    (detectLoopStep (detectLoopStep s p₁ a₁).1 p₂ a₂).1.smoothedPitch
      = s.smoothedPitch ∧
    (detectLoopStep (detectLoopStep (detectLoopStep s p₁ a₁).1 p₂ a₂).1
      p₃ a₃).1.smoothedPitch = p₃ ∧
    (detectLoopStep (detectLoopStep (detectLoopStep s p₁ a₁).1 p₂ a₂).1
      p₃ a₃).1.jumpCount = 0 ∧
    (detectLoopStep (detectLoopStep (detectLoopStep s p₁ a₁).1 p₂ a₂).1
      p₃ a₃).1.jumpCandidate = 0 ∧
    (detectLoopStep (detectLoopStep (detectLoopStep s p₁ a₁).1 p₂ a₂).1
      p₃ a₃).2.1 = p₃ := by
  have e₁ : (detectLoopStep s p₁ a₁).1
      = { s with jumpCount := 1, jumpCandidate := p₁ } := by
    rw [detectLoopStep_jump_wait s p₁ a₁ ha₁ hp₁ hsp hj₁
      (by rw [nextJumpCount_of_clear s p₁ hcand]; norm_num [JUMP_CONFIRM])]
    rw [nextJumpCount_of_clear s p₁ hcand, nextJumpCandidate_of_clear s p₁ hcand]
  have e₂ : (detectLoopStep { s with jumpCount := 1, jumpCandidate := p₁ } p₂ a₂).1
      = { s with jumpCount := 2, jumpCandidate := p₁ } := by
    rw [detectLoopStep_jump_wait { s with jumpCount := 1, jumpCandidate := p₁ }
      p₂ a₂ ha₂ hp₂ hsp hj₂
      (by rw [nextJumpCount_of_near { s with jumpCount := 1, jumpCandidate := p₁ }
                p₂ hp₁.1 h₂₁]
          norm_num [JUMP_CONFIRM])]
    rw [nextJumpCount_of_near { s with jumpCount := 1, jumpCandidate := p₁ }
        p₂ hp₁.1 h₂₁,
      nextJumpCandidate_of_near { s with jumpCount := 1, jumpCandidate := p₁ }
        p₂ hp₁.1 h₂₁]
  have e₃ : detectLoopStep { s with jumpCount := 2, jumpCandidate := p₁ } p₃ a₃
      = ({ s with smoothedPitch := p₃, jumpCount := 0, jumpCandidate := 0 },
         p₃, a₃) := by
    rw [detectLoopStep_jump_confirm { s with jumpCount := 2, jumpCandidate := p₁ }
      p₃ a₃ ha₃ hp₃ hsp hj₃
      (by rw [nextJumpCount_of_near { s with jumpCount := 2, jumpCandidate := p₁ }
                p₃ hp₁.1 h₃₁]
          norm_num [JUMP_CONFIRM])]
  rw [e₁, e₂, e₃]
  exact ⟨rfl, rfl, rfl, rfl, rfl, rfl⟩

/-- Witness for `C1_jump_confirm`: from smoothed pitch 100 with a clear
jump state, blocks 1050, 1105, 1100 Hz confirm on the 3rd block, which
adopts 1100 directly and clears the jump state. -/
theorem C1_jump_confirm_witness :
    (detectLoopStep ⟨100, -1, 0, 0, 0⟩ 1050 1).1.smoothedPitch = 100 ∧
    (detectLoopStep (detectLoopStep ⟨100, -1, 0, 0, 0⟩ 1050 1).1
      1105 1).1.smoothedPitch = 100 ∧
    (detectLoopStep (detectLoopStep (detectLoopStep ⟨100, -1, 0, 0, 0⟩ 1050 1).1
      1105 1).1 1100 1).1.smoothedPitch = 1100 ∧
    (detectLoopStep (detectLoopStep (detectLoopStep ⟨100, -1, 0, 0, 0⟩ 1050 1).1
      1105 1).1 1100 1).1.jumpCount = 0 ∧
    (detectLoopStep (detectLoopStep (detectLoopStep ⟨100, -1, 0, 0, 0⟩ 1050 1).1
      1105 1).1 1100 1).1.jumpCandidate = 0 ∧
    (detectLoopStep (detectLoopStep (detectLoopStep ⟨100, -1, 0, 0, 0⟩ 1050 1).1
      1105 1).1 1100 1).2.1 = 1100 :=
  C1_jump_confirm ⟨100, -1, 0, 0, 0⟩ 1050 1105 1100 1 1 1
    (by norm_num) rfl
    (by norm_num [AMPLITUDE_THRESHOLD]) (by norm_num [AMPLITUDE_THRESHOLD])
    (by norm_num [AMPLITUDE_THRESHOLD])
    (by norm_num) (by norm_num) (by norm_num)
    (by norm_num) (by norm_num) (by norm_num)
    (by norm_num) (by norm_num)

/-- C4: the best-candidate selection is the left-to-right fold of the
source's comparison seeded with the first candidate, and the comparison
replaces the best exactly under the stated conditions; consequently with
two comparably strong candidates at lags `tau` (2nd harmonic) and
`2*tau` (fundamental), the longer-lag candidate is selected. -/
theorem C4_best_candidate :
    (∀ (first : Candidate) (rest : List Candidate),
      pickBest first rest = rest.foldl pickBestStep first) ∧
    (∀ best c : Candidate,
      pickBestStep best c =
        if c.value < best.value * (8/10) then c
        else if c.value < best.value * (12/10) ∧
            (c.tau : ℚ) > (best.tau : ℚ) * (3/2) then c
        else best) ∧
    (∀ (tauHarmonic : ℕ) (vHarmonic vFund : ℚ),
      0 < tauHarmonic → vFund < vHarmonic * (12/10) →
      pickBest ⟨tauHarmonic, vHarmonic⟩ [⟨2 * tauHarmonic, vFund⟩] =
        ⟨2 * tauHarmonic, vFund⟩) := by
  refine ⟨fun _ _ => rfl, fun _ _ => rfl, fun th vh vf hth hv => ?_⟩
  show pickBestStep ⟨th, vh⟩ ⟨2 * th, vf⟩ = ⟨2 * th, vf⟩
  have htau : ((2 * th : ℕ) : ℚ) > (th : ℚ) * (3/2) := by
    push_cast
    have h1 : (1 : ℚ) ≤ th := by exact_mod_cast hth
    nlinarith
  unfold pickBestStep
  by_cases h1 : vf < vh * (8/10)
  · rw [if_pos h1]
  · rw [if_neg h1, if_pos (And.intro hv htau)]

/-- Witness for `C4_best_candidate`: of the candidates `(tau 100,
value 0.1)` (a 2nd harmonic) and `(tau 200, value 0.11)` (the
fundamental, comparably strong), the fold picks the one at lag 200. -/
theorem C4_best_candidate_witness :
    0 < 100 ∧ (11/100 : ℚ) < (1/10) * (12/10) ∧
    pickBest ⟨100, 1/10⟩ [⟨200, 11/100⟩] = ⟨200, 11/100⟩ := by
  refine ⟨by norm_num, by norm_num, ?_⟩
  have := C4_best_candidate.2.2 100 (1/10) (11/100) (by norm_num) (by norm_num)
  simpa using this

/-- The range invariant of C10: the stored smoothed pitch is 0 or
strictly between 0 and 5000 Hz. -/
def pitchInRange (s : TrackerState) : Prop :=
  s.smoothedPitch = 0 ∨ (0 < s.smoothedPitch ∧ s.smoothedPitch < 5000)

/-- One tracker block preserves the smoothed-pitch range invariant. -/
theorem detectLoopStep_pitchInRange (s : TrackerState) (p a : ℚ)
    (h : pitchInRange s) : pitchInRange (detectLoopStep s p a).1 := by
  by_cases ha : a < AMPLITUDE_THRESHOLD
  · rw [detectLoopStep_gate s p a ha]
    exact Or.inl rfl
  by_cases hp : p > 0 ∧ p < 5000
  · by_cases hsp : s.smoothedPitch > 0
    · have hlt : s.smoothedPitch < 5000 := by
        rcases h with h0 | hr
        · exact absurd h0 (ne_of_gt hsp)
        · exact hr.2
      by_cases hj : p / s.smoothedPitch > 9/5 ∨ p / s.smoothedPitch < 11/20
      · by_cases hc : nextJumpCount s p ≥ JUMP_CONFIRM
        · rw [detectLoopStep_jump_confirm s p a ha hp hsp hj hc]
          exact Or.inr hp
        · rw [detectLoopStep_jump_wait s p a ha hp hsp hj (by omega)]
          exact Or.inr ⟨hsp, hlt⟩
      · rw [detectLoopStep_smooth s p a ha hp hsp hj]
        have hgoal : 0 < PITCH_SMOOTHING * s.smoothedPitch + (1 - PITCH_SMOOTHING) * p ∧
            PITCH_SMOOTHING * s.smoothedPitch + (1 - PITCH_SMOOTHING) * p < 5000 := by
          unfold PITCH_SMOOTHING
          constructor <;> nlinarith [hsp, hlt, hp.1, hp.2]
        exact Or.inr hgoal
    · rw [detectLoopStep_adopt s p a ha hp hsp]
      exact Or.inr hp
  · rw [detectLoopStep_reset s p a ha hp]
    exact Or.inl rfl

/-- Given the range invariant, the frequency a tracker block reports is
either 0 or strictly between 0 and 5000 Hz. -/
theorem detectLoopStep_report_range (s : TrackerState) (p a : ℚ)
    (h : pitchInRange s) (hne : (detectLoopStep s p a).2.1 ≠ 0) :
    0 < (detectLoopStep s p a).2.1 ∧ (detectLoopStep s p a).2.1 < 5000 := by
  by_cases ha : a < AMPLITUDE_THRESHOLD
  · rw [detectLoopStep_gate s p a ha] at hne
    exact absurd rfl hne
  by_cases hp : p > 0 ∧ p < 5000
  · by_cases hsp : s.smoothedPitch > 0
    · have hlt : s.smoothedPitch < 5000 := by
        rcases h with h0 | hr
        · exact absurd h0 (ne_of_gt hsp)
        · exact hr.2
      by_cases hj : p / s.smoothedPitch > 9/5 ∨ p / s.smoothedPitch < 11/20
      · by_cases hc : nextJumpCount s p ≥ JUMP_CONFIRM
        · rw [detectLoopStep_jump_confirm s p a ha hp hsp hj hc]
          exact hp
        · rw [detectLoopStep_jump_wait s p a ha hp hsp hj (by omega)]
          exact ⟨hsp, hlt⟩
      · rw [detectLoopStep_smooth s p a ha hp hsp hj]
        show 0 < PITCH_SMOOTHING * s.smoothedPitch + (1 - PITCH_SMOOTHING) * p ∧
          PITCH_SMOOTHING * s.smoothedPitch + (1 - PITCH_SMOOTHING) * p < 5000
        unfold PITCH_SMOOTHING
        constructor <;> nlinarith [hsp, hlt, hp.1, hp.2]
    · rw [detectLoopStep_adopt s p a ha hp hsp]
      exact hp
  · rw [detectLoopStep_reset s p a ha hp] at hne
    exact absurd rfl hne

/-- The range invariant holds after folding any block sequence from a
state satisfying it. -/
theorem foldl_pitchInRange (l : List (ℚ × ℚ)) (s : TrackerState)
    (h : pitchInRange s) :
    pitchInRange (l.foldl (fun s pa => (detectLoopStep s pa.1 pa.2).1) s) := by
  induction l generalizing s with
  | nil => exact h
  | cons x xs ih => exact ih _ (detectLoopStep_pitchInRange s x.1 x.2 h)

/-- C10: after any block sequence from the initial state the stored
smoothed pitch is 0 or strictly between 0 and 5000 Hz, and any nonzero
frequency the next block reports lies strictly between 0 and 5000 Hz. -/
theorem C10_pitch_range (inputs : List (ℚ × ℚ)) (p a : ℚ) :
    pitchInRange (runTracker inputs) ∧
    ((detectLoopStep (runTracker inputs) p a).2.1 ≠ 0 →
      0 < (detectLoopStep (runTracker inputs) p a).2.1 ∧
      (detectLoopStep (runTracker inputs) p a).2.1 < 5000) := by
  have hinv : pitchInRange (runTracker inputs) :=
    foldl_pitchInRange inputs initialState (Or.inl rfl)
  exact ⟨hinv, detectLoopStep_report_range (runTracker inputs) p a hinv⟩

/-- Witness for `C10_pitch_range`: after one block at 440 Hz the stored
pitch is in range, and a further 440 Hz block reports a nonzero frequency
strictly between 0 and 5000. -/
theorem C10_pitch_range_witness :
    pitchInRange (runTracker [(440, 1)]) ∧
    (0 < (detectLoopStep (runTracker [(440, 1)]) 440 1).2.1 ∧
     (detectLoopStep (runTracker [(440, 1)]) 440 1).2.1 < 5000) :=
  ⟨(C10_pitch_range [(440, 1)] 440 1).1,
   (C10_pitch_range [(440, 1)] 440 1).2
     (by norm_num [runTracker, initialState, detectLoopStep,
       AMPLITUDE_THRESHOLD, PITCH_SMOOTHING])⟩
